import Mathlib

set_option maxHeartbeats 1000000

/-!
Verification development for the Agentic Policy Copilot repository
(`graph.py`, `tools.py`, `memory_store.py`, `app.py`, `llm.py`).

The Python source is shallowly embedded: pure functions become Lean
functions, file-system state is passed explicitly, and fallible code
returns `Except Unit`.  The language-model service is modelled as an
oracle parameter `llm : List Message → String` (the content of the
assistant reply); `call_llm` in `llm.py` always wraps the service reply
as an assistant-role message, which the embedding reflects by tagging
the oracle's output with `Role.assistant` at each call site.
-/

/-- Message roles, mirroring `SystemMessage` / `HumanMessage` / `AIMessage`
from `langchain_core.messages` as used in `graph.py`. -/
inductive Role where
  | system
  | user
  | assistant
  deriving DecidableEq

/-- One conversational message (role plus text content). -/
structure Message where
  role : Role
  content : String
  deriving DecidableEq

/-- A retrieved policy document: `Document(page_content=text, metadata={"source": str(path)})`
in `tools.py`. -/
structure Document where
  page_content : String
  source : String
  deriving DecidableEq

/-- A user profile: a Python dict of fact-name to fact-value
(insertion-ordered association list, as Python dicts are). -/
abbrev Profile := List (String × String)

/-- The parsed contents of `data/user_profiles.json`: a dict keyed by user_id. -/
abbrev ProfilesDoc := List (String × Profile)

/-- Outcome of attempting to read and JSON-parse the profiles file in
`memory_store.py`:
`missing` = `PROFILE_PATH.exists()` is false;
`ioError` = the file exists but `read_text` raises `OSError`
(only `json.JSONDecodeError` is caught by the source, so this propagates);
`readOk none` = the read succeeded but `json.loads` raised `JSONDecodeError`;
`readOk (some doc)` = read and parse succeeded with document `doc`. -/
inductive ReadResult where
  | missing
  | ioError
  | readOk (parsed : Option ProfilesDoc)
  deriving DecidableEq

/-! ## Python dict operations (insertion-ordered association lists) -/

/-- Python dict lookup: first (and in a real dict, only) binding of the key. -/
def dictLookup {α : Type} : List (String × α) → String → Option α
  | [], _ => none
  | kv :: rest, key => if kv.1 = key then some kv.2 else dictLookup rest key

/-- Whether the dict already has a binding for `k`. -/
def dictHasKey {α : Type} (d : List (String × α)) (k : String) : Bool :=
  d.any (fun kv => kv.1 == k)

/-- Python `d[k] = v`: replace the existing binding in place, else append. -/
def dictInsert {α : Type} (d : List (String × α)) (k : String) (v : α) :
    List (String × α) :=
  if dictHasKey d k then d.map (fun kv => if kv.1 = k then (k, v) else kv)
  else d ++ [(k, v)]

/-- Python `d.update(newFields)`: assign every binding of `newFields` into `d`. -/
def dictUpdate {α : Type} (d newFields : List (String × α)) : List (String × α) :=
  newFields.foldl (fun acc kv => dictInsert acc kv.1 kv.2) d

/-- Left-biased choice on options (`a` if present, else `b`). -/
def optOr {α : Type} (a b : Option α) : Option α :=
  match a with
  | some v => some v
  | none => b

theorem dictLookup_append {α : Type} (d₁ d₂ : List (String × α)) (k : String) :
    dictLookup (d₁ ++ d₂) k = optOr (dictLookup d₁ k) (dictLookup d₂ k) := by
  induction d₁ with
  | nil => simp [dictLookup, optOr]
  | cons kv rest ih =>
    simp only [List.cons_append, dictLookup]
    split
    · simp [optOr]
    · exact ih

theorem dictLookup_eq_none_of_hasKey_false {α : Type} (d : List (String × α))
    (k : String) (h : dictHasKey d k = false) : dictLookup d k = none := by
  induction d with
  | nil => rfl
  | cons kv rest ih =>
    simp only [dictHasKey, List.any_cons, Bool.or_eq_false_iff, beq_eq_false_iff_ne] at h
    simp only [dictLookup, if_neg h.1]
    exact ih (by simp [dictHasKey, h.2])

theorem dictLookup_mapSet_ne {α : Type} (d : List (String × α)) (k : String) (v : α)
    (key : String) (hkey : key ≠ k) :
    dictLookup (d.map (fun kv => if kv.1 = k then (k, v) else kv)) key =
      dictLookup d key := by
  induction d with
  | nil => rfl
  | cons kv rest ih =>
    by_cases h : kv.1 = k
    · simp only [List.map_cons, if_pos h, dictLookup]
      rw [if_neg (fun hk => hkey hk.symm), if_neg (fun hk => hkey (h ▸ hk).symm)]
      exact ih
    · simp only [List.map_cons, if_neg h, dictLookup]
      split
      · rfl
      · exact ih

theorem dictLookup_mapSet_hit {α : Type} (d : List (String × α)) (k : String) (v : α)
    (h : dictHasKey d k = true) :
    dictLookup (d.map (fun kv => if kv.1 = k then (k, v) else kv)) k = some v := by
  induction d with
  | nil => simp [dictHasKey] at h
  | cons kv rest ih =>
    by_cases hh : kv.1 = k
    · simp [List.map_cons, if_pos hh, dictLookup]
    · simp only [dictHasKey, List.any_cons, Bool.or_eq_true, beq_iff_eq] at h
      have hrest : dictHasKey rest k = true := by
        rcases h with h | h
        · exact absurd h hh
        · simpa [dictHasKey] using h
      simp only [List.map_cons, if_neg hh, dictLookup, if_neg hh]
      exact ih hrest

theorem dictLookup_dictInsert {α : Type} (d : List (String × α)) (k : String) (v : α)
    (key : String) :
    dictLookup (dictInsert d k v) key = if key = k then some v else dictLookup d key := by
  unfold dictInsert
  by_cases hk : dictHasKey d k = true
  · rw [if_pos hk]
    by_cases hkey : key = k
    · subst hkey
      rw [if_pos rfl, dictLookup_mapSet_hit d key v hk]
    · rw [if_neg hkey, dictLookup_mapSet_ne d k v key hkey]
  · rw [if_neg hk, dictLookup_append]
    by_cases hkey : key = k
    · subst hkey
      rw [dictLookup_eq_none_of_hasKey_false d key (by simpa using hk)]
      simp [optOr, dictLookup]
    · have h2 : dictLookup [(k, v)] key = none := by
        simp only [dictLookup]
        rw [if_neg (fun h => hkey h.symm)]
      rw [h2, if_neg hkey]
      cases h3 : dictLookup d key <;> simp [optOr]

theorem dictLookup_eq_none_of_not_mem {α : Type} (d : List (String × α)) (k : String)
    (h : k ∉ d.map Prod.fst) : dictLookup d k = none := by
  induction d with
  | nil => rfl
  | cons kv rest ih =>
    simp only [List.map_cons, List.mem_cons] at h
    push_neg at h
    simp only [dictLookup]
    rw [if_neg (fun he => h.1 he.symm)]
    exact ih h.2

theorem dictLookup_dictUpdate {α : Type} (d nf : List (String × α))
    (hnd : (nf.map Prod.fst).Nodup) (key : String) :
    dictLookup (dictUpdate d nf) key = optOr (dictLookup nf key) (dictLookup d key) := by
  induction nf generalizing d with
  | nil => simp [dictUpdate, dictLookup, optOr]
  | cons kv rest ih =>
    simp only [List.map_cons, List.nodup_cons] at hnd
    have step : dictUpdate d (kv :: rest) = dictUpdate (dictInsert d kv.1 kv.2) rest := by
      simp [dictUpdate, List.foldl_cons]
    rw [step, ih (dictInsert d kv.1 kv.2) hnd.2, dictLookup_dictInsert]
    by_cases hkey : key = kv.1
    · rw [hkey, dictLookup_eq_none_of_not_mem rest kv.1 hnd.1]
      simp [dictLookup, optOr]
    · rw [if_neg hkey]
      simp only [dictLookup]
      rw [if_neg (fun he => hkey he.symm)]

/-! ## memory_store.py -/

/-- The read-and-parse step shared by `load_user_profile` and
`save_user_profile` in `memory_store.py`: the whole `if PROFILE_PATH.exists()
... try json.loads(read_text) except json.JSONDecodeError` block.  A missing
file and a parse failure both degrade to the empty document; an `OSError`
raised by `read_text` is not caught and propagates. -/
def readProfiles : ReadResult → Except Unit ProfilesDoc
  | ReadResult.missing => Except.ok []
  | ReadResult.ioError => Except.error ()
  | ReadResult.readOk none => Except.ok []
  | ReadResult.readOk (some doc) => Except.ok doc

/-- `load_user_profile(user_id)`: read the profiles document and return
`profiles.get(user_id, {})`. -/
def load_user_profile (disk : ReadResult) (user_id : String) : Except Unit Profile :=
  match readProfiles disk with
  | Except.error e => Except.error e
  | Except.ok profiles => Except.ok ((dictLookup profiles user_id).getD [])

/-- `save_user_profile(user_id, profile)`: re-read the profiles document
(same missing/malformed handling), set `profiles[user_id] = profile`, and
write the whole document back.  The returned `ReadResult` is the new disk
state seen by subsequent reads. -/
def save_user_profile (disk : ReadResult) (user_id : String) (profile : Profile) :
    Except Unit ReadResult :=
  match readProfiles disk with
  | Except.error e => Except.error e
  | Except.ok profiles =>
      Except.ok (ReadResult.readOk (some (dictInsert profiles user_id profile)))

/-- `append_episode(user_id, summary)`: append one `{"user_id", "summary"}`
record to `episodes.jsonl`.  The log is modelled at the parsed-record level
(one list entry per JSON line, in file order). -/
def append_episode (episodes : List (String × String)) (user_id summary : String) :
    List (String × String) :=
  episodes ++ [(user_id, summary)]

/-- A sequence of `append_episode` calls, applied in order. -/
def appendEpisodes (episodes : List (String × String))
    (calls : List (String × String)) : List (String × String) :=
  calls.foldl (fun log c => append_episode log c.1 c.2) episodes

/-! ## Python string helpers used by tools.py and graph.py -/

/-- The punctuation set of `w.strip(".,?!")` in `tools.py`. -/
def isPunct (c : Char) : Bool :=
  c = '.' || c = ',' || c = '?' || c = '!'

/-- Python `w.strip(".,?!")`: remove characters of the set from BOTH ends. -/
def pyStrip (w : String) : String :=
  String.mk (((w.toList.dropWhile isPunct).reverse.dropWhile isPunct).reverse)

/-- Python `s.lower()` (character-wise lowering). -/
def pyLower (s : String) : String :=
  String.mk (s.toList.map Char.toLower)

/-- Python `s.strip()` with no argument: remove whitespace from both ends. -/
def pyTrim (s : String) : String :=
  String.mk (((s.toList.dropWhile Char.isWhitespace).reverse.dropWhile
    Char.isWhitespace).reverse)

/-- Accumulator loop for `pyWords`: current partial word is `acc` (reversed). -/
def wordsAux : List Char → List Char → List String
  | [], acc => if acc.isEmpty then [] else [String.mk acc.reverse]
  | c :: cs, acc =>
    if Char.isWhitespace c then
      if acc.isEmpty then wordsAux cs [] else String.mk acc.reverse :: wordsAux cs []
    else wordsAux cs (c :: acc)

/-- Python `s.split()` with no argument: split on whitespace runs,
discarding empty pieces. -/
def pyWords (s : String) : List String :=
  wordsAux s.toList []

/-- Whether `needle` is a prefix of `hay` (character lists). -/
def listStartsWith : List Char → List Char → Bool
  | [], _ => true
  | _ :: _, [] => false
  | a :: as, b :: bs => a == b && listStartsWith as bs

/-- Whether `needle` occurs as a contiguous run inside `hay`. -/
def listHasRun (needle : List Char) : List Char → Bool
  | [] => needle.isEmpty
  | b :: bs => listStartsWith needle (b :: bs) || listHasRun needle bs

/-- Python substring test `needle in haystack`. -/
def strContains (haystack needle : String) : Bool :=
  listHasRun needle.toList haystack.toList

/-- Python `text.replace(".", "")`. -/
def removeDots (s : String) : String :=
  String.mk (s.toList.filter (fun c => c ≠ '.'))

/-! ## tools.py -/

/-- The keyword extraction of `search_policies` applied to the normalized
(stripped, lowercased, nonempty) query: words longer than 3 characters with
`.,?!` stripped from both ends, falling back to the whole query when no raw
word is longer than 3 characters. -/
def extractKeywords (q : String) : List String :=
  let raw_words := pyWords q
  let keywords := (raw_words.filter (fun w => decide (3 < w.length))).map pyStrip
  if keywords = [] then [q] else keywords

/-- The `for path in POLICY_DIR.glob("*.txt")` loop of `search_policies`.
Each file is `(path, some text)` when readable and `(path, none)` when
`read_text` raises `OSError` (the `continue` branch, which skips the
`len(docs) >= top_k` check).  The break check runs after every successful
read, whether or not the file matched. -/
def searchLoop (keywords : List String) (top_k : Nat) :
    List (String × Option String) → List Document → List Document
  | [], docs => docs
  | (path, content) :: rest, docs =>
    match content with
    | none => searchLoop keywords top_k rest docs
    | some text =>
      let docs1 :=
        if keywords.any (fun kw => strContains (pyLower text) kw) then
          docs ++ [Document.mk text path]
        else docs
      if top_k ≤ docs1.length then docs1 else searchLoop keywords top_k rest docs1

/-- `search_policies(query, top_k=3)` over an explicit policy directory
listing (in directory-listing order).  Call sites in `graph.py` use the
default `top_k = 3`, passed explicitly here. -/
def search_policies (files : List (String × Option String)) (query : String)
    (top_k : Nat) : List Document :=
  let q := pyLower (pyTrim query)
  if q = "" then [] else searchLoop (extractKeywords q) top_k files []

/-- `get_user_profile_tool(user_id)`: pure passthrough to `load_user_profile`. -/
def get_user_profile_tool (disk : ReadResult) (user_id : String) : Except Unit Profile :=
  load_user_profile disk user_id

/-- `update_user_profile_tool(user_id, new_fields)`: load, merge
(`profile.update(new_fields)`), save, and return the merged profile together
with the new disk state. -/
def update_user_profile_tool (disk : ReadResult) (user_id : String)
    (new_fields : Profile) : Except Unit (Profile × ReadResult) :=
  match load_user_profile disk user_id with
  | Except.error e => Except.error e
  | Except.ok profile =>
    let merged := dictUpdate profile new_fields
    match save_user_profile disk user_id merged with
    | Except.error e => Except.error e
    | Except.ok disk2 => Except.ok (merged, disk2)

/-- The documents built from the readable files of a directory listing, in
listing order. -/
def readableDocs (files : List (String × Option String)) : List Document :=
  files.filterMap (fun pc => pc.2.map (fun t => Document.mk t pc.1))

/-! ## graph.py: state, nodes, and the compiled graph -/

/-- The shared `AgentState` TypedDict of `graph.py` (`total=False`): fields
that nodes may find absent are `Option`-valued with `none` for "key not in
state".  `messages` is read with default `[]` and `user_id` is always set by
the driver before any node runs (and `run_tools` indexes it directly). -/
structure AgentState where
  messages : List Message
  user_id : String
  user_profile : Option Profile
  profile_updated : Option Bool
  policy_query : Option String
  retrieved_policies : Option (List Document)
  tool_results : Option (List (String × String))
  next_action : Option String
  done : Option Bool
  deriving DecidableEq

/-- The file-system world the graph touches: the policy directory listing,
the profiles file, and the episode log. -/
structure World where
  policyFiles : List (String × Option String)
  profileDisk : ReadResult
  episodes : List (String × String)
  deriving DecidableEq

/-- `for m in reversed(messages): if isinstance(m, HumanMessage): ...` —
the most recent user-role message, if any. -/
def lastHuman (messages : List Message) : Option Message :=
  messages.reverse.find? (fun m => m.role == Role.user)

/-- The fixed keyword list of the planner's rule-based short-circuit. -/
def policy_keywords : List String :=
  ["refund", "loan", "privacy", "ticket", "escalation", "policy"]

/-- The planner's system instruction (graph.py lines 145-161). -/
def plannerSystemText : String :=
  "You are a support copilot for internal policies.\n" ++
  "You can decide one of these next actions:\n" ++
  "- search_policies: when you need to look up a policy document.\n" ++
  "- update_profile: when the user shares stable preferences or profile info (e.g., favorite color).\n" ++
  "- ask_clarification: when the question is unclear and you need more info.\n" ++
  "- answer: when you can answer directly from the current context.\n" ++
  "In your reply, clearly include the chosen action name exactly once in this format:\n" ++
  "Action: search_policies\n" ++
  "or\n" ++
  "Action: update_profile\n" ++
  "or\n" ++
  "Action: ask_clarification\n" ++
  "or\n" ++
  "Action: answer"

/-- The planner's system message. -/
def plannerSystemMsg : Message :=
  Message.mk Role.system plannerSystemText

/-- The naive `action: ...` parsing of the planner reply (graph.py lines
172-183).  The final `elif "action: answer"` and the `else` fallback both
produce `"answer"`; both branches are kept to mirror the source. -/
def parseActionMarkers (content_lower : String) : String :=
  if strContains content_lower "action: search_policies" then "search_policies"
  else if strContains content_lower "action: update_profile" then "update_profile"
  else if strContains content_lower "action: ask_clarification" then "ask_clarification"
  else if strContains content_lower "action: answer" then "answer"
  else "answer"

/-- Stage 2 of the planner (graph.py lines 144-186): consult the model,
append its reply to the conversation for traceability, and parse the
lowercased reply for an action marker.  Factored out of `planner` so the
"model consulted" path can be named. -/
def plannerLLM (llm : List Message → String) (s : AgentState) : AgentState :=
  let ai_content := llm (plannerSystemMsg :: s.messages)
  { s with
    messages := s.messages ++ [Message.mk Role.assistant ai_content],
    next_action := some (parseActionMarkers (pyLower ai_content)) }

/-- The `planner` node: rule-based short-circuit first (lines 127-142), then
the model-based decision. -/
def planner (llm : List Message → String) (s : AgentState) : AgentState :=
  match lastHuman s.messages with
  | some m =>
    if policy_keywords.any (fun kw => strContains (pyLower m.content) kw) = true
        ∧ s.policy_query ≠ some m.content then
      { s with next_action := some "search_policies" }
    else plannerLLM llm s
  | none => plannerLLM llm s

/-- The `ingest_user` node: lazily load the profile when `user_id` is truthy
and no profile is in the state, then default `retrieved_policies`,
`tool_results` and `done`. -/
def ingest_user (disk : ReadResult) (s : AgentState) : Except Unit AgentState :=
  let step1 : Except Unit AgentState :=
    if s.user_id ≠ "" ∧ s.user_profile = none then
      match get_user_profile_tool disk s.user_id with
      | Except.error e => Except.error e
      | Except.ok profile =>
        Except.ok { s with user_profile := some profile, profile_updated := some false }
    else Except.ok s
  match step1 with
  | Except.error e => Except.error e
  | Except.ok s1 =>
    Except.ok { s1 with
      retrieved_policies := some (s1.retrieved_policies.getD []),
      tool_results := some (s1.tool_results.getD []),
      done := some (s1.done.getD false) }

/-- The toy extraction rule of `run_tools` for `update_profile` (graph.py
lines 221-228): if the stripped message text contains "favorite color"
(lowercased), record its last whitespace-separated token — after removing
all `.` characters — under `"favorite_color"`; otherwise no new fields. -/
def favoriteColorFields (text : String) : Profile :=
  if strContains (pyLower text) "favorite color" then
    match (pyWords (removeDots text)).getLast? with
    | some v => [("favorite_color", v)]
    | none => []
  else []

/-- The branching body of `run_tools`, before the trailing
`state.setdefault("tool_results", {})`. -/
def run_tools_core (w : World) (s : AgentState) : Except Unit (AgentState × World) :=
  let action := s.next_action.getD "answer"
  let last_human := lastHuman s.messages
  if action = "search_policies" then
    let query := (last_human.map Message.content).getD ""
    let hits := search_policies w.policyFiles query 3
    Except.ok ({ s with policy_query := some query, retrieved_policies := some hits }, w)
  else if action = "update_profile" then
    match last_human with
    | none => Except.ok (s, w)
    | some m =>
      let new_fields := favoriteColorFields (pyTrim m.content)
      if new_fields = [] then Except.ok (s, w)
      else
        match update_user_profile_tool w.profileDisk s.user_id new_fields with
        | Except.error e => Except.error e
        | Except.ok (updated, disk2) =>
          Except.ok ({ s with user_profile := some updated, profile_updated := some true },
                     { w with profileDisk := disk2 })
  else Except.ok (s, w)

/-- The `run_tools` node (graph.py lines 188-239).  The trailing
`state.setdefault("tool_results", {})` runs on every successful path. -/
def run_tools (w : World) (s : AgentState) : Except Unit (AgentState × World) :=
  match run_tools_core w s with
  | Except.error e => Except.error e
  | Except.ok (s1, w1) =>
    Except.ok ({ s1 with tool_results := some (s1.tool_results.getD []) }, w1)

/-- The answer node's system instruction (graph.py lines 251-259). -/
def answerSystemText : String :=
  "You are a helpful, concise support copilot.\n" ++
  "Use the user profile, any retrieved policy snippets, and the " ++
  "conversation to answer the user\x27s latest question.\n" ++
  "If you looked up policies, briefly mention that you checked the policy documents.\n" ++
  "If you updated the user\x27s profile, you may briefly acknowledge it."

/-- Python `str(...)` rendering of the profile dict embedded into the answer
context (`f"[USER_PROFILE]\n{...}"`). -/
def pyStrProfile (p : Profile) : String :=
  let q := String.mk [Char.ofNat 39]
  let items := p.map (fun kv => q ++ kv.1 ++ q ++ ": " ++ q ++ kv.2 ++ q)
  "\x7b" ++ String.intercalate ", " items ++ "\x7d"

/-- The `[USER_PROFILE]` block of the answer node's context message. -/
def profileContext (s : AgentState) : String :=
  "[USER_PROFILE]\n" ++ pyStrProfile (s.user_profile.getD []) ++ "\n"

/-- The `[POLICY from ...]` blocks of the answer node's context message. -/
def policyContext (s : AgentState) : String :=
  ((s.retrieved_policies.getD []).map
    (fun d => "\n[POLICY from " ++ d.source ++ "]\n" ++ d.page_content ++ "\n")).foldl
    (fun acc b => acc ++ b) ""

/-- The `answer` node (graph.py lines 242-278): build the system and context
messages, call the model on `[system, context] + messages`, append the
assistant reply, and set `done = True`. -/
def answer (llm : List Message → String) (s : AgentState) : AgentState :=
  let system := Message.mk Role.system answerSystemText
  let context_msg := Message.mk Role.system
    ("Context for this conversation:\n" ++ profileContext s ++ "\n" ++ policyContext s)
  let reply := llm ([system, context_msg] ++ s.messages)
  { s with messages := s.messages ++ [Message.mk Role.assistant reply], done := some true }

/-- The `log_episode` node: find the most recent assistant message and, if
one exists, append an episode record.  (`state.get("user_id",
"unknown-user")` — in this embedding `user_id` is always present, so the
default never fires.) -/
def log_episode_node (w : World) (s : AgentState) : AgentState × World :=
  match s.messages.reverse.find? (fun m => m.role == Role.assistant) with
  | some m => (s, { w with episodes := append_episode w.episodes s.user_id m.content })
  | none => (s, w)

/-- The nodes registered in `build_graph`. -/
inductive Node where
  | nIngest
  | nPlan
  | nAct
  | nAnswer
  | nLog
  deriving DecidableEq

/-- The conditional-edge dispatch table after `planner`
(`add_conditional_edges`, graph.py lines 327-336); an action outside the
table makes the compiled graph raise. -/
def routeAction (a : String) : Option Node :=
  if a = "answer" then some Node.nAnswer
  else if a = "search_policies" then some Node.nAct
  else if a = "update_profile" then some Node.nAct
  else if a = "ask_clarification" then some Node.nAnswer
  else none

/-- One invocation of the compiled graph, starting at `node`, with `fuel`
bounding the Plan ⇄ Act cycle (the source has no iteration guard, so an
invocation that cycles longer than `fuel` yields `ok none` = "not yet at the
end state").  `Except.error` models an uncaught Python exception,
`ok (some result)` models reaching the terminal end state. -/
def runFrom (llm : List Message → String) :
    Nat → Node → World → AgentState → Except Unit (Option (AgentState × World))
  | 0, _, _, _ => Except.ok none
  | Nat.succ fuel, Node.nIngest, w, s =>
    match ingest_user w.profileDisk s with
    | Except.error e => Except.error e
    | Except.ok s1 => runFrom llm fuel Node.nPlan w s1
  | Nat.succ fuel, Node.nPlan, w, s =>
    let s1 := planner llm s
    match s1.next_action with
    | none => Except.error ()
    | some a =>
      match routeAction a with
      | none => Except.error ()
      | some nxt => runFrom llm fuel nxt w s1
  | Nat.succ fuel, Node.nAct, w, s =>
    match run_tools w s with
    | Except.error e => Except.error e
    | Except.ok (s1, w1) => runFrom llm fuel Node.nPlan w1 s1
  | Nat.succ fuel, Node.nAnswer, w, s =>
    runFrom llm fuel Node.nLog w (answer llm s)
  | Nat.succ _, Node.nLog, w, s =>
    Except.ok (some (log_episode_node w s))

/-- One invocation of the compiled graph from its entry point `ingest_user`. -/
def runGraph (llm : List Message → String) (fuel : Nat) (w : World) (s : AgentState) :
    Except Unit (Option (AgentState × World)) :=
  runFrom llm fuel Node.nIngest w s

/-- Number of assistant-role messages in a conversation. -/
def assistantCount (msgs : List Message) : Nat :=
  msgs.countP (fun m => m.role == Role.assistant)

/-- The driver's per-line step on the conversation (app.py line 49):
`state.setdefault("messages", []).append(HumanMessage(content=user_input))`. -/
def driverAppendUserInput (s : AgentState) (user_input : String) : AgentState :=
  { s with messages := s.messages ++ [Message.mk Role.user user_input] }

/-! ## Node-level lemmas -/

theorem assistantCount_append (a b : List Message) :
    assistantCount (a ++ b) = assistantCount a + assistantCount b := by
  simp [assistantCount, List.countP_append]

theorem ingest_user_messages (disk : ReadResult) (s s1 : AgentState)
    (h : ingest_user disk s = Except.ok s1) : s1.messages = s.messages := by
  simp only [ingest_user] at h
  split at h
  · exact absurd h (by simp)
  · rename_i s2 heq
    split at heq
    · split at heq
      · exact absurd heq (by simp)
      · rename_i profile heq2
        cases heq
        cases h
        rfl
    · cases heq
      cases h
      rfl

theorem okPairInj {α β : Type} {a c : α} {b d : β}
    (h : (Except.ok (a, b) : Except Unit (α × β)) = Except.ok (c, d)) :
    c = a ∧ d = b := by
  injection h with h1
  exact ⟨(congrArg Prod.fst h1).symm, (congrArg Prod.snd h1).symm⟩

theorem planner_messages (llm : List Message → String) (s : AgentState) :
    (planner llm s).messages = s.messages ∨
      (planner llm s).messages =
        s.messages ++ [Message.mk Role.assistant (llm (plannerSystemMsg :: s.messages))] := by
  cases h : lastHuman s.messages with
  | none =>
    right
    simp only [planner, h, plannerLLM]
  | some m =>
    by_cases hc : policy_keywords.any (fun kw => strContains (pyLower m.content) kw) = true
        ∧ s.policy_query ≠ some m.content
    · left
      simp only [planner, h]
      rw [if_pos hc]
    · right
      simp only [planner, h]
      rw [if_neg hc]
      simp only [plannerLLM]

theorem run_tools_core_messages (w : World) (s s1 : AgentState) (w1 : World)
    (h : run_tools_core w s = Except.ok (s1, w1)) :
    s1.messages = s.messages := by
  simp only [run_tools_core] at h
  split_ifs at h with h1 h2
  · rw [(okPairInj h).1]
  · split at h
    · rw [(okPairInj h).1]
    · split_ifs at h with h3
      · rw [(okPairInj h).1]
      · split at h
        · exact nomatch h
        · rw [(okPairInj h).1]
  · rw [(okPairInj h).1]

theorem run_tools_messages (w : World) (s s1 : AgentState) (w1 : World)
    (h : run_tools w s = Except.ok (s1, w1)) : s1.messages = s.messages := by
  simp only [run_tools] at h
  split at h
  · exact nomatch h
  · rename_i s2 w2 heq
    rw [(okPairInj h).1]
    exact run_tools_core_messages w s s2 w2 heq

theorem answer_messages (llm : List Message → String) (s : AgentState) :
    (answer llm s).messages = s.messages ++
      [Message.mk Role.assistant
        (llm ([Message.mk Role.system answerSystemText,
               Message.mk Role.system ("Context for this conversation:\n" ++
                 profileContext s ++ "\n" ++ policyContext s)] ++ s.messages))] ∧
    (answer llm s).done = some true := by
  constructor <;> rfl

theorem log_episode_node_fst (w : World) (s : AgentState) :
    (log_episode_node w s).1 = s := by
  unfold log_episode_node
  split <;> rfl

theorem routeAction_ne_nLog (a : String) (n : Node) (h : routeAction a = some n) :
    n ≠ Node.nLog := by
  unfold routeAction at h
  split_ifs at h <;> (cases h; simp)

/-- Core invariant of one graph invocation: from any node other than `log`,
reaching the end state implies `done = true` and a net gain of at least one
assistant message; the `log` node itself returns the state unchanged. -/
theorem runFrom_inv (llm : List Message → String) :
    ∀ fuel node w s s' w', runFrom llm fuel node w s = Except.ok (some (s', w')) →
      (node = Node.nLog → s' = s) ∧
      (node ≠ Node.nLog →
        s'.done = some true ∧
        assistantCount s.messages + 1 ≤ assistantCount s'.messages) := by
  intro fuel
  induction fuel with
  | zero =>
    intro node w s s' w' h
    exact absurd h (by simp [runFrom])
  | succ n ih =>
    intro node w s s' w' h
    cases node with
    | nIngest =>
      refine ⟨fun hc => (nomatch hc), fun _ => ?_⟩
      simp only [runFrom] at h
      split at h
      · exact nomatch h
      · rename_i s1 heq
        have hmsg := ingest_user_messages w.profileDisk s s1 heq
        have hrec := (ih Node.nPlan w s1 s' w' h).2 (fun hc => (nomatch hc))
        rw [hmsg] at hrec
        exact hrec
    | nPlan =>
      refine ⟨fun hc => (nomatch hc), fun _ => ?_⟩
      simp only [runFrom] at h
      split at h
      · exact nomatch h
      · rename_i a heq
        split at h
        · exact nomatch h
        · rename_i nxt hroute
          have hnx := routeAction_ne_nLog a nxt hroute
          have hstep := (ih nxt w (planner llm s) s' w' h).2 hnx
          have hmono : assistantCount s.messages ≤
              assistantCount (planner llm s).messages := by
            rcases planner_messages llm s with hp | hp
            · rw [hp]
            · rw [hp, assistantCount_append]
              exact Nat.le_add_right _ _
          exact ⟨hstep.1, le_trans (Nat.add_le_add_right hmono 1) hstep.2⟩
    | nAct =>
      refine ⟨fun hc => (nomatch hc), fun _ => ?_⟩
      simp only [runFrom] at h
      split at h
      · exact nomatch h
      · rename_i s1 w1 heq
        have hmsg := run_tools_messages w s s1 w1 heq
        have hrec := (ih Node.nPlan w1 s1 s' w' h).2 (fun hc => (nomatch hc))
        rw [hmsg] at hrec
        exact hrec
    | nAnswer =>
      refine ⟨fun hc => (nomatch hc), fun _ => ?_⟩
      simp only [runFrom] at h
      have hlog := (ih Node.nLog w (answer llm s) s' w' h).1 rfl
      have hans := answer_messages llm s
      subst hlog
      refine ⟨hans.2, ?_⟩
      rw [hans.1, assistantCount_append]
      simp [assistantCount, List.countP_cons]
    | nLog =>
      refine ⟨fun _ => ?_, fun hc => absurd rfl hc⟩
      simp only [runFrom] at h
      have h1 : log_episode_node w s = (s', w') := Option.some.inj (Except.ok.inj h)
      have h2 : s' = (log_episode_node w s).1 := by rw [h1]
      rw [h2, log_episode_node_fst]

/-! ## Spec-side definitions (for refinement-style claims) -/

/-- The four action markers, in the order the specification lists them
(which is also the order `planner` checks them). -/
def markerTable : List (String × String) :=
  [("action: search_policies", "search_policies"),
   ("action: update_profile", "update_profile"),
   ("action: ask_clarification", "ask_clarification"),
   ("action: answer", "answer")]

/-- Modelled from the spec's words (claim C6): the action whose marker is
the first of the four literal markers found in the reply's lowercased text,
defaulting to "answer" when none occurs. -/
def specFirstMarkerAction (reply : String) : String :=
  match markerTable.find? (fun p => strContains (pyLower reply) p.1) with
  | some p => p.2
  | none => "answer"

/-- Modelled from the spec's words (claim C4): keyword normalization with
only TRAILING `.,?!` stripped (the source strips both ends). -/
def specTrailingStrip (w : String) : String :=
  String.mk ((w.toList.reverse.dropWhile isPunct).reverse)

/-- Modelled from the spec's words (claim C4): keywords as the claim
describes them — words longer than 3 characters with trailing `.,?!`
stripped, or the whole normalized query if no such word survives. -/
def specTrailingKeywords (q : String) : List String :=
  let raw_words := pyWords q
  let keywords := (raw_words.filter (fun w => decide (3 < w.length))).map specTrailingStrip
  if keywords = [] then [q] else keywords

/-! ## Claim theorems -/

/-- C1: if the most recent user-role message's lowercased text contains a
policy keyword and the recorded policy_query is not exactly that message's
text, Plan forces next_action = "search_policies" and returns with the state
otherwise untouched and independent of the model; if policy_query exactly
equals the message's text, the rule does not fire and Plan proceeds to the
model-based stage. -/
theorem planner_keyword_short_circuit (llm : List Message → String) (s : AgentState)
    (m : Message) (hm : lastHuman s.messages = some m)
    (hkw : policy_keywords.any (fun kw => strContains (pyLower m.content) kw) = true) :
    (s.policy_query ≠ some m.content →
       planner llm s = { s with next_action := some "search_policies" }) ∧
    (s.policy_query = some m.content → planner llm s = plannerLLM llm s) := by
  constructor
  · intro hne
    simp only [planner, hm]
    rw [if_pos ⟨hkw, hne⟩]
  · intro heq
    simp only [planner, hm]
    rw [if_neg (fun hc => hc.2 heq)]

def c1LLM : List Message → String := fun _ => "Action: answer"

def c1Msg : Message := Message.mk Role.user "What is the refund policy?"

def c1State : AgentState :=
  { messages := [c1Msg], user_id := "u1", user_profile := none,
    profile_updated := none, policy_query := none, retrieved_policies := none,
    tool_results := none, next_action := none, done := none }

theorem planner_keyword_short_circuit_witness :
    planner c1LLM c1State = { c1State with next_action := some "search_policies" } :=
  (planner_keyword_short_circuit c1LLM c1State c1Msg rfl (by decide)).1 (by decide)

/-- C5 counterexample: the claim says any file-system error while reading is
treated as "no data" yielding an empty mapping, but `load_user_profile`
catches only `json.JSONDecodeError`, so an `OSError` raised by `read_text`
on an existing file propagates as an exception. -/
theorem load_profile_read_error_cex :
    load_user_profile ReadResult.ioError "u1" = Except.error () := rfl

/-- C5 amended: Load profile returns an empty mapping (without raising) when
the profiles file is missing or when its content is malformed; but an OS
error while reading an existing file is not caught and propagates. -/
theorem load_profile_degrades (user_id : String) :
    load_user_profile ReadResult.missing user_id = Except.ok [] ∧
    load_user_profile (ReadResult.readOk none) user_id = Except.ok [] ∧
    load_user_profile ReadResult.ioError user_id = Except.error () :=
  ⟨rfl, rfl, rfl⟩

/-- C6: the fallback parser of the Plan node sets next_action to the action
whose marker is the first of the four literal markers found (in the listed
priority order) in the model reply's lowercased text, defaulting to
"answer" when none occurs. -/
theorem planner_fallback_first_marker (llm : List Message → String) (s : AgentState) :
    (plannerLLM llm s).next_action =
      some (specFirstMarkerAction (llm (plannerSystemMsg :: s.messages))) := by
  have hgen : ∀ r : String, parseActionMarkers (pyLower r) = specFirstMarkerAction r := by
    intro r
    unfold parseActionMarkers specFirstMarkerAction markerTable
    cases h1 : strContains (pyLower r) "action: search_policies" <;>
    cases h2 : strContains (pyLower r) "action: update_profile" <;>
    cases h3 : strContains (pyLower r) "action: ask_clarification" <;>
    cases h4 : strContains (pyLower r) "action: answer" <;>
    simp [List.find?, h1, h2, h3, h4]
  simp only [plannerLLM]
  rw [hgen]

/-- C8: N calls to Append episode add exactly N records to the episode log,
each equal to the corresponding call's (user_id, summary) arguments, and the
records written by earlier appends are unchanged. -/
theorem episode_log_append_only (episodes₀ : List (String × String))
    (calls : List (String × String)) :
    appendEpisodes episodes₀ calls = episodes₀ ++ calls ∧
    (appendEpisodes episodes₀ calls).length = episodes₀.length + calls.length ∧
    (appendEpisodes episodes₀ calls).take episodes₀.length = episodes₀ := by
  have hmain : ∀ init : List (String × String), appendEpisodes init calls = init ++ calls := by
    induction calls with
    | nil => intro init; simp [appendEpisodes]
    | cons c cs ih =>
      intro init
      have h1 : appendEpisodes init (c :: cs) =
          appendEpisodes (init ++ [(c.1, c.2)]) cs := rfl
      rw [h1, ih]
      simp
  refine ⟨hmain episodes₀, ?_, ?_⟩
  · rw [hmain episodes₀]; simp
  · rw [hmain episodes₀]
    exact List.take_left episodes₀ calls

/-- C3: updating a user's profile and then reading it back yields exactly
the union of the previously stored profile and the new fields, with the new
fields' values taking precedence on key collision; the update tool also
returns this merged mapping. -/
theorem profile_round_trip (disk : ReadResult) (user_id : String) (fields : Profile)
    (hnd : (fields.map Prod.fst).Nodup)
    (prev merged : Profile) (disk2 : ReadResult)
    (hprev : load_user_profile disk user_id = Except.ok prev)
    (hupd : update_user_profile_tool disk user_id fields = Except.ok (merged, disk2)) :
    get_user_profile_tool disk2 user_id = Except.ok merged ∧
    merged = dictUpdate prev fields ∧
    ∀ k, dictLookup merged k = optOr (dictLookup fields k) (dictLookup prev k) := by
  obtain ⟨doc, hr, hprevval⟩ : ∃ doc, readProfiles disk = Except.ok doc ∧
      prev = (dictLookup doc user_id).getD [] := by
    unfold load_user_profile at hprev
    cases hr : readProfiles disk with
    | error e => rw [hr] at hprev; exact nomatch hprev
    | ok doc =>
      rw [hr] at hprev
      exact ⟨doc, rfl, (Except.ok.inj hprev).symm⟩
  simp only [update_user_profile_tool, load_user_profile, save_user_profile, hr] at hupd
  obtain ⟨hm, hd⟩ := okPairInj hupd
  rw [← hprevval] at hm hd
  refine ⟨?_, hm, ?_⟩
  · rw [hd]
    simp only [get_user_profile_tool, load_user_profile, readProfiles]
    rw [dictLookup_dictInsert]
    simp [hm]
  · intro k
    rw [hm]
    exact dictLookup_dictUpdate prev fields hnd k

def c3fields : Profile := [("favorite_color", "blue")]

def c3out : Profile × ReadResult :=
  match update_user_profile_tool ReadResult.missing "u1" c3fields with
  | Except.ok p => p
  | Except.error _ => ([], ReadResult.missing)

theorem profile_round_trip_witness :
    get_user_profile_tool c3out.2 "u1" = Except.ok c3out.1 :=
  (profile_round_trip ReadResult.missing "u1" c3fields (by decide)
    [] c3out.1 c3out.2 rfl rfl).1

/-- C7: with next_action = "update_profile", if the most recent user
message's stripped text contains "favorite color" (lowercased), the Act node
records the message's last whitespace-separated token (after removing all
`.` characters) under "favorite_color", merges it into the stored profile,
and sets user_profile to the merged profile and profile_updated to true; if
the phrase is absent, no tool call happens and the state is unchanged apart
from the trailing tool_results default. -/
theorem run_tools_update_profile (w : World) (s : AgentState) (m : Message)
    (doc : ProfilesDoc)
    (ha : s.next_action.getD "answer" = "update_profile")
    (hm : lastHuman s.messages = some m)
    (hd : readProfiles w.profileDisk = Except.ok doc) :
    (∀ v, (pyWords (removeDots (pyTrim m.content))).getLast? = some v →
      strContains (pyLower (pyTrim m.content)) "favorite color" = true →
      run_tools w s = Except.ok
        ({ s with
            user_profile := some (dictUpdate ((dictLookup doc s.user_id).getD [])
              [("favorite_color", v)]),
            profile_updated := some true,
            tool_results := some (s.tool_results.getD []) },
         { w with profileDisk := ReadResult.readOk (some (dictInsert doc s.user_id
             (dictUpdate ((dictLookup doc s.user_id).getD [])
               [("favorite_color", v)]))) })) ∧
    (strContains (pyLower (pyTrim m.content)) "favorite color" = false →
      run_tools w s = Except.ok
        ({ s with tool_results := some (s.tool_results.getD []) }, w)) := by
  constructor
  · intro v hv hfav
    have hff : favoriteColorFields (pyTrim m.content) = [("favorite_color", v)] := by
      simp [favoriteColorFields, hfav, hv]
    have hupd : update_user_profile_tool w.profileDisk s.user_id [("favorite_color", v)] =
        Except.ok
          (dictUpdate ((dictLookup doc s.user_id).getD []) [("favorite_color", v)],
           ReadResult.readOk (some (dictInsert doc s.user_id
             (dictUpdate ((dictLookup doc s.user_id).getD [])
               [("favorite_color", v)])))) := by
      simp only [update_user_profile_tool, load_user_profile, save_user_profile, hd]
    have hcore : run_tools_core w s = Except.ok
        ({ s with
            user_profile := some (dictUpdate ((dictLookup doc s.user_id).getD [])
              [("favorite_color", v)]),
            profile_updated := some true },
         { w with profileDisk := ReadResult.readOk (some (dictInsert doc s.user_id
             (dictUpdate ((dictLookup doc s.user_id).getD [])
               [("favorite_color", v)]))) }) := by
      simp only [run_tools_core]
      rw [ha]
      rw [if_neg (by decide), if_pos rfl]
      simp only [hm, hff]
      rw [if_neg (by simp)]
      simp only [hupd]
    simp only [run_tools, hcore]
  · intro hfav
    have hff : favoriteColorFields (pyTrim m.content) = [] := by
      simp [favoriteColorFields, hfav]
    have hcore : run_tools_core w s = Except.ok (s, w) := by
      simp only [run_tools_core]
      rw [ha]
      rw [if_neg (by decide), if_pos rfl]
      simp only [hm, hff]
      rw [if_pos trivial]
    simp only [run_tools, hcore]

def c7Msg : Message := Message.mk Role.user "My favorite color is blue."

def c7State : AgentState :=
  { messages := [c7Msg], user_id := "u1", user_profile := none,
    profile_updated := none, policy_query := none, retrieved_policies := none,
    tool_results := none, next_action := some "update_profile", done := none }

def c7World : World :=
  { policyFiles := [], profileDisk := ReadResult.missing, episodes := [] }

theorem run_tools_update_profile_witness :
    run_tools c7World c7State = Except.ok
      ({ c7State with
          user_profile := some [("favorite_color", "blue")],
          profile_updated := some true, tool_results := some [] },
       { c7World with profileDisk :=
          ReadResult.readOk (some [("u1", [("favorite_color", "blue")])]) }) :=
  (run_tools_update_profile c7World c7State c7Msg [] rfl rfl rfl).1 "blue" rfl rfl

/-! ## Search-loop lemmas -/

theorem listHasRun_nil (l : List Char) : listHasRun [] l = true := by
  induction l with
  | nil => rfl
  | cons c cs ih => simp [listHasRun, listStartsWith, ih]

theorem strContains_empty_needle (t : String) : strContains t "" = true :=
  listHasRun_nil t.toList

theorem dropWhile_eq_nil_of_all {p : Char → Bool} (l : List Char) (h : l.all p = true) :
    l.dropWhile p = [] := by
  induction l with
  | nil => rfl
  | cons c cs ih =>
    simp only [List.all_cons, Bool.and_eq_true] at h
    simp [List.dropWhile, h.1, ih h.2]

theorem searchLoop_length (keywords : List String) (top_k : Nat) :
    ∀ files acc, acc.length < top_k →
      (searchLoop keywords top_k files acc).length ≤ top_k := by
  intro files
  induction files with
  | nil =>
    intro acc h
    simpa [searchLoop] using Nat.le_of_lt h
  | cons pc rest ih =>
    intro acc h
    obtain ⟨path, content⟩ := pc
    cases content with
    | none => simpa [searchLoop] using ih acc h
    | some text =>
      simp only [searchLoop]
      by_cases hmatch : (keywords.any (fun kw => strContains (pyLower text) kw)) = true
      · rw [if_pos hmatch]
        by_cases hbr : top_k ≤ (acc ++ [Document.mk text path]).length
        · rw [if_pos hbr]
          have : (acc ++ [Document.mk text path]).length = acc.length + 1 := by simp
          rw [this]
          exact Nat.succ_le_of_lt h
        · rw [if_neg hbr]
          exact ih _ (Nat.lt_of_not_le hbr)
      · rw [if_neg hmatch]
        by_cases hbr : top_k ≤ acc.length
        · rw [if_pos hbr]
          exact Nat.le_of_lt h
        · rw [if_neg hbr]
          exact ih acc h

theorem searchLoop_mem (keywords : List String) (top_k : Nat) :
    ∀ files acc d, d ∈ searchLoop keywords top_k files acc →
      d ∈ acc ∨ (keywords.any (fun kw => strContains (pyLower d.page_content) kw)) = true := by
  intro files
  induction files with
  | nil =>
    intro acc d hd
    left
    simpa [searchLoop] using hd
  | cons pc rest ih =>
    intro acc d hd
    obtain ⟨path, content⟩ := pc
    cases content with
    | none =>
      simp only [searchLoop] at hd
      exact ih acc d hd
    | some text =>
      simp only [searchLoop] at hd
      by_cases hmatch : (keywords.any (fun kw => strContains (pyLower text) kw)) = true
      · rw [if_pos hmatch] at hd
        have hstep : ∀ x : Document, x ∈ acc ++ [Document.mk text path] →
            x ∈ acc ∨ (keywords.any (fun kw => strContains (pyLower x.page_content) kw)) = true := by
          intro x hx
          rcases List.mem_append.mp hx with hx | hx
          · exact Or.inl hx
          · right
            have hxe : x = Document.mk text path := by simpa using hx
            rw [hxe]
            exact hmatch
        split at hd
        · exact hstep d hd
        · rcases ih _ d hd with hin | hkw
          · exact hstep d hin
          · exact Or.inr hkw
      · rw [if_neg hmatch] at hd
        split at hd
        · exact Or.inl hd
        · exact ih acc d hd

theorem searchLoop_empty_keyword (keywords : List String) (hkw : "" ∈ keywords)
    (top_k : Nat) :
    ∀ files acc, acc.length < top_k →
      searchLoop keywords top_k files acc =
        acc ++ (readableDocs files).take (top_k - acc.length) := by
  intro files
  induction files with
  | nil =>
    intro acc h
    simp [searchLoop, readableDocs]
  | cons pc rest ih =>
    intro acc h
    obtain ⟨path, content⟩ := pc
    cases content with
    | none =>
      simp only [searchLoop]
      rw [ih acc h]
      simp [readableDocs]
    | some text =>
      have hmatch : (keywords.any (fun kw => strContains (pyLower text) kw)) = true := by
        apply List.any_eq_true.mpr
        exact ⟨"", hkw, strContains_empty_needle (pyLower text)⟩
      have hr : readableDocs ((path, some text) :: rest) =
          Document.mk text path :: readableDocs rest := by
        simp [readableDocs]
      simp only [searchLoop]
      rw [if_pos hmatch]
      by_cases hbr : top_k ≤ (acc ++ [Document.mk text path]).length
      · rw [if_pos hbr]
        have hbr2 : top_k ≤ acc.length + 1 := by simpa using hbr
        have hlen : top_k - acc.length = 1 := by omega
        rw [hr, hlen]
        simp
      · rw [if_neg hbr]
        have h1 : (acc ++ [Document.mk text path]).length < top_k := Nat.lt_of_not_le hbr
        rw [ih _ h1, hr]
        have hlen2 : (acc ++ [Document.mk text path]).length = acc.length + 1 := by simp
        rw [hlen2]
        have h2 : acc.length + 1 < top_k := by simpa using h1
        have htk : top_k - acc.length = (top_k - (acc.length + 1)) + 1 := by omega
        rw [htk]
        simp [List.take_succ_cons]

/-- C4 counterexample: for the query "...abcd" against a policy file whose
text is "abcd", search_policies returns the document (the source strips
`.,?!` from BOTH ends, giving keyword "abcd"), yet the document's text
contains none of the claim's trailing-stripped keywords (which are just
"...abcd"). -/
theorem search_policies_trailing_strip_cex :
    search_policies [("p.txt", some "abcd")] "...abcd" 3 =
      [Document.mk "abcd" "p.txt"] ∧
    (specTrailingKeywords (pyLower (pyTrim "...abcd"))).all
      (fun kw => !(strContains (pyLower "abcd") kw)) = true := by decide

/-- C4 (amended): for every query, an empty-after-stripping query returns no
documents; otherwise every returned document's raw text contains,
case-insensitively, at least one keyword of the source's extraction (words
longer than 3 characters with `.,?!` stripped from both leading and trailing
ends, or the whole normalized query if no raw word is longer than 3
characters); and, for any positive result limit, the result never exceeds
the limit. -/
theorem search_policies_spec (files : List (String × Option String)) (query : String)
    (top_k : Nat) (htop : 1 ≤ top_k) :
    (pyLower (pyTrim query) = "" → search_policies files query top_k = []) ∧
    (search_policies files query top_k).length ≤ top_k ∧
    (∀ d ∈ search_policies files query top_k,
      ((extractKeywords (pyLower (pyTrim query))).any
        (fun kw => strContains (pyLower d.page_content) kw)) = true) := by
  refine ⟨?_, ?_, ?_⟩
  · intro hq
    simp [search_policies, hq]
  · by_cases hq : pyLower (pyTrim query) = ""
    · simp [search_policies, hq]
    · simp only [search_policies]
      rw [if_neg hq]
      exact searchLoop_length _ top_k files [] (by simpa using htop)
  · intro d hd
    by_cases hq : pyLower (pyTrim query) = ""
    · simp [search_policies, hq] at hd
    · simp only [search_policies] at hd
      rw [if_neg hq] at hd
      rcases searchLoop_mem _ top_k files [] d hd with h | h
      · exact absurd h (List.not_mem_nil d)
      · exact h

def c4files : List (String × Option String) :=
  [("refund.txt", some "Refund policy: within 30 days.")]

theorem search_policies_spec_witness :
    (search_policies c4files "refund" 3).length ≤ 3 :=
  (search_policies_spec c4files "refund" 3 (by decide)).2.1

/-- C10: a query containing a whitespace-separated token longer than 3
characters made entirely of `.,?!` yields the empty string as a keyword;
since the empty string is a substring of every text, search_policies then
matches every readable policy file regardless of content and returns the
first result_limit of them in directory-listing order. -/
theorem punct_token_query_matches_all (files : List (String × Option String))
    (query : String) (top_k : Nat) (htop : 1 ≤ top_k) (tok : String)
    (hw : tok ∈ pyWords (pyLower (pyTrim query))) (hlen : 3 < tok.length)
    (hp : tok.toList.all isPunct = true) :
    search_policies files query top_k = (readableDocs files).take top_k := by
  have hq : pyLower (pyTrim query) ≠ "" := by
    intro h
    rw [h] at hw
    simp [pyWords, wordsAux] at hw
  have hstrip : pyStrip tok = "" := by
    have hdrop : List.dropWhile isPunct tok.data = [] :=
      dropWhile_eq_nil_of_all tok.data (by simpa [String.toList] using hp)
    simp only [pyStrip, String.toList, hdrop, List.reverse_nil, List.dropWhile_nil]
  have hk : "" ∈ extractKeywords (pyLower (pyTrim query)) := by
    simp only [extractKeywords]
    have hmem : pyStrip tok ∈ ((pyWords (pyLower (pyTrim query))).filter
        (fun x => decide (3 < x.length))).map pyStrip :=
      List.mem_map_of_mem pyStrip (List.mem_filter.mpr ⟨hw, by simpa using hlen⟩)
    rw [hstrip] at hmem
    rw [if_neg (List.ne_nil_of_mem hmem)]
    exact hmem
  simp only [search_policies]
  rw [if_neg hq]
  have hloop := searchLoop_empty_keyword _ hk top_k files [] (by simpa using htop)
  simpa using hloop

def c10files : List (String × Option String) :=
  [("a.txt", some "Anything at all"), ("b.txt", none), ("c.txt", some "x")]

theorem punct_token_query_matches_all_witness :
    search_policies c10files "????" 3 = (readableDocs c10files).take 3 :=
  punct_token_query_matches_all c10files "????" 3 (by decide) "????"
    (by decide) (by decide) (by decide)

/-- C2: every invocation of the compiled graph that reaches its terminal end
state leaves done = true in the returned state and has appended at least one
assistant-role message to messages (both paths to the end state pass through
the Answer node). -/
theorem turn_end_done_and_reply (llm : List Message → String) (fuel : Nat)
    (w : World) (s s' : AgentState) (w' : World)
    (h : runGraph llm fuel w s = Except.ok (some (s', w'))) :
    s'.done = some true ∧
    assistantCount s.messages + 1 ≤ assistantCount s'.messages :=
  (runFrom_inv llm fuel Node.nIngest w s s' w' h).2 (fun hc => (nomatch hc))

def c2LLM : List Message → String := fun _ => "Action: answer"

def c2State : AgentState :=
  { messages := [Message.mk Role.user "hello"], user_id := "u1",
    user_profile := none, profile_updated := none, policy_query := none,
    retrieved_policies := none, tool_results := none, next_action := none,
    done := none }

def c2World : World :=
  { policyFiles := [], profileDisk := ReadResult.missing, episodes := [] }

def c2Result : AgentState × World :=
  match runGraph c2LLM 6 c2World c2State with
  | Except.ok (some p) => p
  | _ => (c2State, c2World)

theorem turn_end_done_and_reply_witness :
    c2Result.1.done = some true ∧
    assistantCount c2State.messages + 1 ≤ assistantCount c2Result.1.messages :=
  turn_end_done_and_reply c2LLM 6 c2World c2State c2Result.1 c2Result.2 rfl

/-- C9: each node of the Turn Controller (ingest, plan, act, answer, log)
and the Driver's input-appending step leave the existing conversation intact
as a prefix of the resulting messages — messages are only ever appended at
the end, never deleted, replaced, or reordered. -/
theorem messages_append_only (disk : ReadResult) (llm : List Message → String)
    (w : World) (s : AgentState) (user_input : String)
    (si sr : AgentState) (wr : World)
    (hi : ingest_user disk s = Except.ok si)
    (hr : run_tools w s = Except.ok (sr, wr)) :
    si.messages.take s.messages.length = s.messages ∧
    (planner llm s).messages.take s.messages.length = s.messages ∧
    sr.messages.take s.messages.length = s.messages ∧
    (answer llm s).messages.take s.messages.length = s.messages ∧
    ((log_episode_node w s).1).messages.take s.messages.length = s.messages ∧
    (driverAppendUserInput s user_input).messages.take s.messages.length =
      s.messages := by
  refine ⟨?_, ?_, ?_, ?_, ?_, ?_⟩
  · rw [ingest_user_messages disk s si hi]
    exact List.take_length _
  · rcases planner_messages llm s with hp | hp
    · rw [hp]; exact List.take_length _
    · rw [hp]; exact List.take_left _ _
  · rw [run_tools_messages w s sr wr hr]
    exact List.take_length _
  · rw [(answer_messages llm s).1]
    exact List.take_left _ _
  · rw [log_episode_node_fst]
    exact List.take_length _
  · simp only [driverAppendUserInput]
    exact List.take_left _ _

def c9LLM : List Message → String := fun _ => "Action: answer"

def c9State : AgentState :=
  { messages := [Message.mk Role.user "hi"], user_id := "u1",
    user_profile := none, profile_updated := none, policy_query := none,
    retrieved_policies := none, tool_results := none,
    next_action := some "answer", done := none }

def c9World : World :=
  { policyFiles := [], profileDisk := ReadResult.missing, episodes := [] }

def c9Ingested : AgentState :=
  match ingest_user ReadResult.missing c9State with
  | Except.ok s => s
  | Except.error _ => c9State

def c9Tooled : AgentState × World :=
  match run_tools c9World c9State with
  | Except.ok p => p
  | Except.error _ => (c9State, c9World)

theorem messages_append_only_witness :
    c9Ingested.messages.take c9State.messages.length = c9State.messages ∧
    (planner c9LLM c9State).messages.take c9State.messages.length =
      c9State.messages ∧
    c9Tooled.1.messages.take c9State.messages.length = c9State.messages ∧
    (answer c9LLM c9State).messages.take c9State.messages.length =
      c9State.messages ∧
    ((log_episode_node c9World c9State).1).messages.take
      c9State.messages.length = c9State.messages ∧
    (driverAppendUserInput c9State "again").messages.take
      c9State.messages.length = c9State.messages :=
  messages_append_only ReadResult.missing c9LLM c9World c9State "again"
    c9Ingested c9Tooled.1 c9Tooled.2 rfl rfl
